import Mathlib

/-!
Verification of the research-brief-generator pipeline: a shallow embedding of
the search tools (`app/tools.py`), the graph stages (`app/graph.py`) and the
user-context store (`app/database.py`), with theorems settling the stated
properties of the spec.  External collaborators (the search provider, the
document fetcher's network/HTML layer, the text-completion service, the clock
and the fresh-id generator) enter as explicit parameters; everything else is
translated directly from the source.
-/

namespace ResearchBrief

/-! ## Data model (`app/schemas.py`) -/

/-- `SearchResult` (tools.py): one search hit. -/
structure SearchResult where
  title : String
  url : String
  snippet : String
  domain : String
deriving DecidableEq, Repr

/-- The dictionary returned by `ContentFetcherTool._run` (tools.py). -/
structure FetchedContent where
  url : String
  title : String
  content : String
  content_length : Nat
  success : Bool
  error : Option String
deriving DecidableEq, Repr

/-- One item of the list returned by `SearchAndFetchTool._run` (tools.py):
a search hit paired with its fetch outcome. -/
structure FetchedResult where
  search_result : SearchResult
  content : FetchedContent
deriving DecidableEq, Repr

/-- `ResearchStep` (schemas.py). -/
structure ResearchStep where
  step_id : Nat
  title : String
  description : String
  priority : Nat
  estimated_time : Nat
  keywords : List String
deriving DecidableEq, Repr

/-- `ResearchPlan` (schemas.py); `total_estimated_time` is a computed field. -/
structure ResearchPlan where
  topic : String
  depth : Nat
  steps : List ResearchStep
  focus_areas : List String
deriving DecidableEq, Repr

/-- Computed field `ResearchPlan.total_estimated_time` (schemas.py). -/
def ResearchPlan.total_estimated_time (p : ResearchPlan) : Nat :=
  (p.steps.map (·.estimated_time)).sum

/-- `SourceMetadata` (schemas.py).  Timestamps are rationals (unix seconds). -/
structure SourceMetadata where
  title : String
  url : String
  domain : String
  publication_date : Option ℚ
  author : Option String
  source_type : String
deriving DecidableEq, Repr

/-- `SourceSummary` (schemas.py); scores are rationals in `[0,1]`. -/
structure SourceSummary where
  source_id : String
  metadata : SourceMetadata
  summary : String
  key_points : List String
  relevance_score : ℚ
  credibility_score : ℚ
  extraction_timestamp : ℚ
deriving DecidableEq, Repr

/-- `ContextSummary` (schemas.py). -/
structure ContextSummary where
  user_id : String
  previous_topics : List String
  key_themes : List String
  preferred_depth : Nat
  last_interaction : Option ℚ
  context_relevance_score : ℚ
deriving DecidableEq, Repr

/-- `FinalBrief` (schemas.py).  The token-usage mapping is an association list
of per-category counters. -/
structure FinalBrief where
  brief_id : String
  topic : String
  summary : String
  key_findings : List String
  methodology : String
  sources : List SourceSummary
  recommendations : List String
  limitations : List String
  generated_at : ℚ
  execution_time : ℚ
  token_usage : List (String × Nat)
  cost_estimate : ℚ
deriving DecidableEq, Repr

/-! ## Search tools (`app/tools.py`) -/

/-- Python's `a or b` for an optional string `a`: `None` and the empty string
are falsy and fall through to `b`. -/
def orElseStr (a : Option String) (b : String) : String :=
  match a with
  | some s => if s = "" then b else s
  | none => b

/-- One raw dictionary from the ddgs search provider; every key is optional. -/
structure ProviderHit where
  href : Option String
  link : Option String
  url : Option String
  title : Option String
  body : Option String
  snippet : Option String
deriving DecidableEq, Repr

/-- `url = result.get('href') or result.get('link') or result.get('url', '')`
in `WebSearchTool._run`. -/
def hitUrl (h : ProviderHit) : String :=
  orElseStr h.href (orElseStr h.link (h.url.getD ""))

/-- The mock result `WebSearchTool._run` returns when the provider raises. -/
def mockSearchResult (query : String) : SearchResult :=
  { title := query ++ " - Research Information"
    url := "https://example.com/research"
    snippet := "Information about " ++ query ++
      " including key concepts, applications, and current developments in the field."
    domain := "example.com" }

/-- `WebSearchTool._run` (tools.py, lines 32-66): on provider success, keep the
hits with a non-empty url, building a `SearchResult` for each; on provider
failure, return the single mock result.  `netloc` stands for
`urlparse(url).netloc`. -/
def webSearchRun (query : String) (netloc : String → String)
    (provider : Except String (List ProviderHit)) : List SearchResult :=
  match provider with
  | .ok hits =>
    hits.filterMap (fun h =>
      let url := hitUrl h
      if url = "" then none
      else some
        { title := h.title.getD ""
          url := url
          snippet := orElseStr h.body (h.snippet.getD "")
          domain := netloc url })
  | .error _ => [mockSearchResult query]

/-- The extracted page a successful fetch produces, before truncation:
`title` is the page title, `text` the whitespace-cleaned full text. -/
structure ExtractedPage where
  title : String
  text : String
deriving DecidableEq, Repr

/-- Python slicing `s[:n]` on a string (by code point). -/
def strTake (s : String) (n : Nat) : String := ⟨s.data.take n⟩

/-- `ContentFetcherTool._run` (tools.py, lines 81-142): on success the content
is truncated to 8000 characters while `content_length` is the length of the
untruncated text; on failure the content is a diagnostic string and
`content_length` is the constant 50. -/
def fetchContent (url : String) (outcome : Except String ExtractedPage) :
    FetchedContent :=
  match outcome with
  | .ok page =>
    { url := url
      title := page.title
      content := strTake page.text 8000
      content_length := page.text.length
      success := true
      error := none }
  | .error e =>
    { url := url
      title := "Content Unavailable"
      content := "Content could not be fetched from " ++ url ++ ". Error: " ++ e
      content_length := 50
      success := false
      error := some e }

/-- `SearchAndFetchTool._run` (tools.py, lines 159-174): pair every search hit
with its fetch outcome, keeping failed fetches. -/
def searchAndFetchRun (query : String) (netloc : String → String)
    (provider : Except String (List ProviderHit))
    (fetcher : String → Except String ExtractedPage) : List FetchedResult :=
  (webSearchRun query netloc provider).map
    (fun r => { search_result := r, content := fetchContent r.url (fetcher r.url) })

/-- The depth ≤ 2 query tier of `ResearchSearchTool._run`. -/
def overviewQueries (topic : String) : List String :=
  [topic ++ " overview", topic ++ " introduction", "what is " ++ topic]

/-- The depth 3-4 query tier of `ResearchSearchTool._run`. -/
def currentAnalysisQueries (topic : String) : List String :=
  [topic ++ " analysis", topic ++ " research", topic ++ " recent developments",
   topic ++ " current state"]

/-- The depth ≥ 5 query tier of `ResearchSearchTool._run`. -/
def deepResearchQueries (topic : String) : List String :=
  [topic ++ " comprehensive analysis", topic ++ " research paper",
   topic ++ " detailed study", topic ++ " expert analysis",
   topic ++ " latest research"]

/-- The tier selection of `ResearchSearchTool._run` (tools.py, lines 193-217). -/
def researchQueryTier (topic : String) (depth : Nat) : List String :=
  if depth ≤ 2 then overviewQueries topic
  else if depth ≤ 4 then currentAnalysisQueries topic
  else deepResearchQueries topic

/-- `queries[:depth]`: the queries the search loop actually issues
(tools.py, line 220). -/
def issuedQueries (topic : String) (depth : Nat) : List String :=
  (researchQueryTier topic depth).take depth

/-- The deduplication loop of `ResearchSearchTool._run` (tools.py, lines
225-231): keep a result iff its url has not been seen yet. -/
def dedupByURL : List FetchedResult → List String → List FetchedResult
  | [], _ => []
  | r :: rest, seen =>
    if r.search_result.url ∈ seen then dedupByURL rest seen
    else r :: dedupByURL rest (r.search_result.url :: seen)

/-- Lines 224-233 of `ResearchSearchTool._run`: deduplicate the accumulated
results by url, then truncate to `settings.max_search_results`. -/
def researchDedup (all_results : List FetchedResult) (maxResults : Nat) :
    List FetchedResult :=
  (dedupByURL all_results []).take maxResults

/-- Default of `settings.max_search_results` (config.py, line 36). -/
def maxSearchResultsDefault : Nat := 10

/-- `ResearchSearchTool._run` (tools.py, lines 190-233): issue the selected
queries, accumulate the per-query results, deduplicate and truncate.
`runQuery` stands for `self.search_and_fetch._run(query, max_results=2)`. -/
def researchSearchRun (topic : String) (depth : Nat) (maxResults : Nat)
    (runQuery : String → List FetchedResult) : List FetchedResult :=
  researchDedup ((issuedQueries topic depth).map runQuery).flatten maxResults

/-! ## Theorems for claim C2 -/

/-- **C2.** For every depth in [1,5], the Research Search Orchestrator issues
exactly `depth` queries, all of which are taken from the single tier selected
for that depth (the first `depth` templates of that tier), the tier being the
3-template overview tier for depth ≤ 2, the 4-template current-analysis tier
for depth 3-4, and the 5-template deep-research tier for depth ≥ 5. -/
theorem issuedQueries_length_and_tier (topic : String) (depth : Nat)
    (h1 : 1 ≤ depth) (h2 : depth ≤ 5) :
    (issuedQueries topic depth).length = depth ∧
    (∀ q ∈ issuedQueries topic depth, q ∈ researchQueryTier topic depth) ∧
    issuedQueries topic depth = (researchQueryTier topic depth).take depth ∧
    (depth ≤ 2 → researchQueryTier topic depth = overviewQueries topic) ∧
    (3 ≤ depth → depth ≤ 4 → researchQueryTier topic depth = currentAnalysisQueries topic) ∧
    (5 ≤ depth → researchQueryTier topic depth = deepResearchQueries topic) ∧
    (overviewQueries topic).length = 3 ∧
    (currentAnalysisQueries topic).length = 4 ∧
    (deepResearchQueries topic).length = 5 := by
  refine ⟨?_, fun q hq => List.mem_of_mem_take hq, rfl, ?_, ?_, ?_, rfl, rfl, rfl⟩
  · interval_cases depth <;>
      simp [issuedQueries, researchQueryTier, overviewQueries,
        currentAnalysisQueries, deepResearchQueries]
  · intro h
    simp [researchQueryTier, h]
  · intro h3 h4
    have : ¬ depth ≤ 2 := by omega
    simp [researchQueryTier, this, h4]
  · intro h5
    have hn2 : ¬ depth ≤ 2 := by omega
    have hn4 : ¬ depth ≤ 4 := by omega
    simp [researchQueryTier, hn2, hn4]

/-- Witness for C2 at topic `"ai"`, depth 3. -/
theorem issuedQueries_length_and_tier_witness :
    1 ≤ 3 ∧ 3 ≤ 5 ∧ (issuedQueries "ai" 3).length = 3 :=
  ⟨by decide, by decide, (issuedQueries_length_and_tier "ai" 3 (by decide) (by decide)).1⟩

/-! ## Lemmas about the deduplication loop -/

/-- The deduplication loop returns a sublist of its input. -/
theorem dedupByURL_sublist (rs : List FetchedResult) (seen : List String) :
    List.Sublist (dedupByURL rs seen) rs := by
  induction rs generalizing seen with
  | nil => simp [dedupByURL]
  | cons r rest ih =>
    by_cases h : r.search_result.url ∈ seen
    · simp only [dedupByURL, if_pos h]
      exact List.Sublist.cons r (ih seen)
    · simp only [dedupByURL, if_neg h]
      exact List.Sublist.cons₂ r (ih (r.search_result.url :: seen))

/-- No url of the deduplicated output lies in `seen`, and the output urls are
pairwise distinct. -/
theorem dedupByURL_not_seen_nodup (rs : List FetchedResult) (seen : List String) :
    (∀ r ∈ dedupByURL rs seen, r.search_result.url ∉ seen) ∧
    ((dedupByURL rs seen).map (·.search_result.url)).Nodup := by
  induction rs generalizing seen with
  | nil => simp [dedupByURL]
  | cons r rest ih =>
    by_cases h : r.search_result.url ∈ seen
    · simpa only [dedupByURL, if_pos h] using ih seen
    · have ih' := ih (r.search_result.url :: seen)
      simp only [dedupByURL, if_neg h]
      constructor
      · intro x hx
        rcases List.mem_cons.mp hx with rfl | hx'
        · exact h
        · intro hmem
          exact ih'.1 x hx' (List.mem_cons_of_mem _ hmem)
      · rw [List.map_cons, List.nodup_cons]
        refine ⟨?_, ih'.2⟩
        intro hmem
        rcases List.mem_map.mp hmem with ⟨x, hx, hux⟩
        exact ih'.1 x hx (hux ▸ List.mem_cons_self _ _)

/-- Every input url is either already seen or represented in the output. -/
theorem dedupByURL_covers (rs : List FetchedResult) (seen : List String) :
    ∀ r ∈ rs, r.search_result.url ∈ seen ∨
      r.search_result.url ∈ (dedupByURL rs seen).map (·.search_result.url) := by
  induction rs generalizing seen with
  | nil => simp
  | cons r rest ih =>
    intro x hx
    by_cases h : r.search_result.url ∈ seen
    · simp only [dedupByURL, if_pos h]
      rcases List.mem_cons.mp hx with rfl | hx'
      · exact Or.inl h
      · exact ih seen x hx'
    · simp only [dedupByURL, if_neg h, List.map_cons]
      rcases List.mem_cons.mp hx with rfl | hx'
      · exact Or.inr (List.mem_cons_self _ _)
      · rcases ih (r.search_result.url :: seen) x hx' with hs | ho
        · rcases List.mem_cons.mp hs with heq | hs'
          · exact Or.inr (heq ▸ List.mem_cons_self _ _)
          · exact Or.inl hs'
        · exact Or.inr (List.mem_cons_of_mem _ ho)

/-- Every entry of the deduplicated output is the first occurrence of its url
in the input list. -/
theorem dedupByURL_first_occurrence (rs : List FetchedResult) (seen : List String) :
    ∀ r ∈ dedupByURL rs seen,
      rs.find? (fun x => x.search_result.url == r.search_result.url) = some r := by
  induction rs generalizing seen with
  | nil => simp [dedupByURL]
  | cons r rest ih =>
    intro x hx
    by_cases h : r.search_result.url ∈ seen
    · simp only [dedupByURL, if_pos h] at hx
      have hne : x.search_result.url ≠ r.search_result.url := by
        intro heq
        exact (dedupByURL_not_seen_nodup rest seen).1 x hx (heq ▸ h)
      rw [List.find?_cons_of_neg _ (by simpa using fun heq => hne heq.symm)]
      exact ih seen x hx
    · simp only [dedupByURL, if_neg h] at hx
      rcases List.mem_cons.mp hx with rfl | hx'
      · rw [List.find?_cons_of_pos _ (by simp)]
      · have hnotin := (dedupByURL_not_seen_nodup rest (r.search_result.url :: seen)).1 x hx'
        have hne : x.search_result.url ≠ r.search_result.url := by
          intro heq
          exact hnotin (heq ▸ List.mem_cons_self _ _)
        rw [List.find?_cons_of_neg _ (by simpa using fun heq => hne heq.symm)]
        exact ih (r.search_result.url :: seen) x hx'

/-! ## Theorems for claim C3 -/

/-- A minimal `FetchedResult` with the given url, used in concrete scenarios. -/
def sampleResult (u : String) : FetchedResult :=
  { search_result := { title := "t", url := u, snippet := "s", domain := "d" }
    content :=
      { url := u, title := "t", content := "c", content_length := 1,
        success := true, error := none } }

/-- Eleven accumulated results with pairwise-distinct urls. -/
def elevenResults : List FetchedResult :=
  ["u01", "u02", "u03", "u04", "u05", "u06", "u07", "u08", "u09", "u10",
   "u11"].map sampleResult

/-- **C3 counterexample.** With the default maximum of 10 results, an
accumulated list carrying 11 distinct urls yields an output with no entry at
all for the 11th url, refuting "the output contains exactly one entry per
distinct URL" as stated. -/
theorem researchDedup_not_one_per_url :
    (∃ r ∈ elevenResults, r.search_result.url = "u11") ∧
    (researchDedup elevenResults maxSearchResultsDefault).length = 10 ∧
    ∀ r ∈ researchDedup elevenResults maxSearchResultsDefault,
      r.search_result.url ≠ "u11" := by
  decide

/-- **C3 (amended).** The orchestrator's output after deduplication and
truncation: its length never exceeds the configured maximum; it is an
order-preserving sublist of the accumulated input; its urls are pairwise
distinct (at most one entry per url); every entry is the first-encountered
occurrence of its url; before truncation every input url is represented
exactly once; and whenever the deduplicated pool fits under the maximum the
truncation drops nothing, so each distinct url keeps exactly one entry. -/
theorem researchDedup_dedup_and_bound (rs : List FetchedResult) (maxResults : Nat) :
    (researchDedup rs maxResults).length ≤ maxResults ∧
    List.Sublist (researchDedup rs maxResults) rs ∧
    ((researchDedup rs maxResults).map (·.search_result.url)).Nodup ∧
    (∀ r ∈ researchDedup rs maxResults,
      rs.find? (fun x => x.search_result.url == r.search_result.url) = some r) ∧
    (∀ r ∈ rs, r.search_result.url ∈ (dedupByURL rs []).map (·.search_result.url)) ∧
    ((dedupByURL rs []).length ≤ maxResults →
      researchDedup rs maxResults = dedupByURL rs []) := by
  refine ⟨?_, ?_, ?_, ?_, ?_, ?_⟩
  · simp only [researchDedup]
    exact List.length_take_le maxResults (dedupByURL rs [])
  · exact List.Sublist.trans (List.take_sublist _ _) (dedupByURL_sublist rs [])
  · have hnodup := (dedupByURL_not_seen_nodup rs []).2
    refine List.Nodup.sublist ?_ hnodup
    simpa [researchDedup] using List.Sublist.map (·.search_result.url)
      (List.take_sublist maxResults (dedupByURL rs []))
  · intro r hr
    exact dedupByURL_first_occurrence rs [] r (List.mem_of_mem_take hr)
  · intro r hr
    rcases dedupByURL_covers rs [] r hr with hs | ho
    · exact absurd hs (List.not_mem_nil _)
    · exact ho
  · intro hle
    exact List.take_of_length_le hle

/-- A small accumulated list with one duplicated url. -/
def dupSample : List FetchedResult := ["a", "a", "b"].map sampleResult

/-- Witness for the amended C3: on a concrete input whose deduplicated pool
fits under the maximum, the bound holds and truncation drops nothing. -/
theorem researchDedup_dedup_and_bound_witness :
    (researchDedup dupSample 10).length ≤ 10 ∧
    researchDedup dupSample 10 = dedupByURL dupSample [] :=
  ⟨(researchDedup_dedup_and_bound dupSample 10).1,
   (researchDedup_dedup_and_bound dupSample 10).2.2.2.2.2 (by decide)⟩

/-! ## Graph state and stage nodes (`app/graph.py`) -/

/-- One entry of `state.search_results` as the graph sees it: a dictionary
whose `search_result` payload may be missing/falsy (`none`) and whose
`content` sub-dictionary may be absent. -/
structure GraphSearchItem where
  search_result : Option SearchResult
  content : Option FetchedContent
deriving DecidableEq, Repr

/-- The dictionaries built by `SearchAndFetchTool._run` always carry both
payloads. -/
def FetchedResult.toItem (r : FetchedResult) : GraphSearchItem :=
  { search_result := some r.search_result, content := some r.content }

/-- `GraphState` (schemas.py, lines 104-122): the run state threaded through
all stages. -/
structure GraphState where
  topic : String
  depth : Nat
  user_id : String
  follow_up : Bool
  context_summary : Option ContextSummary := none
  research_plan : Option ResearchPlan := none
  search_results : List GraphSearchItem := []
  source_summaries : List SourceSummary := []
  final_brief : Option FinalBrief := none
  start_time : Option ℚ := none
  current_step : String := ""
  errors : List String := []
  token_usage : List (String × Nat) := []
deriving DecidableEq, Repr

/-- `ResearchBriefGraph._context_summarization_node` (graph.py, lines 56-89).
`llm` is the combined outcome of the prior-brief lookup and the
context-summarization call, used only on the follow-up path. -/
def contextSummarizationNode (llm : Except String ContextSummary)
    (s : GraphState) : GraphState :=
  let s := { s with current_step := "context_summarization" }
  if s.follow_up then
    match llm with
    | .ok cs => { s with context_summary := some cs }
    | .error e =>
      { s with errors := s.errors ++ ["Context summarization error: " ++ e] }
  else
    { s with context_summary := some {
        user_id := s.user_id
        previous_topics := []
        key_themes := []
        preferred_depth := s.depth
        last_interaction := none
        context_relevance_score := 0 } }

/-- The fallback plan built in `_planning_node` (graph.py, lines 111-126) and
re-built defensively in `_synthesis_node` (lines 230-245). -/
def fallbackPlan (topic : String) (depth : Nat) : ResearchPlan :=
  { topic := topic
    depth := depth
    steps :=
      [{ step_id := 1
         title := "Research " ++ topic ++ " basics"
         description := "Find basic information about " ++ topic
         priority := 5
         estimated_time := 30
         keywords := [topic, "basics", "introduction"] }]
    focus_areas := [topic, "fundamentals"] }

/-- `ResearchBriefGraph._planning_node` (graph.py, lines 91-127): store the
generated plan, or record the error and substitute the fallback plan. -/
def planningNode (llm : Except String ResearchPlan) (s : GraphState) :
    GraphState :=
  let s := { s with current_step := "planning" }
  match llm with
  | .ok plan => { s with research_plan := some plan }
  | .error e =>
    { s with
      errors := s.errors ++ ["Planning error: " ++ e]
      research_plan := some (fallbackPlan s.topic s.depth) }

/-- `ResearchBriefGraph._search_node` (graph.py, lines 129-145). -/
def searchNode (tool : Except String (List FetchedResult)) (s : GraphState) :
    GraphState :=
  let s := { s with current_step := "search" }
  match tool with
  | .ok rs => { s with search_results := rs.map FetchedResult.toItem }
  | .error e => { s with errors := s.errors ++ ["Search error: " ++ e] }

/-- `ResearchBriefGraph._content_fetching_node` (graph.py, lines 147-153):
a pass-through stage. -/
def contentFetchingNode (s : GraphState) : GraphState :=
  { s with current_step := "content_fetching" }

/-- Metadata built per item in `_per_source_summarization_node`
(graph.py, lines 172-179). -/
def mkMetadata (sr : SearchResult) : SourceMetadata :=
  { title := sr.title
    url := sr.url
    domain := sr.domain
    publication_date := none
    author := none
    source_type := "web_article" }

/-- One iteration of the per-source loop (graph.py, lines 162-213): skip an
item with no search-result payload; otherwise summarize it, substituting the
fixed fallback summary (relevance 0.6, credibility 0.5) when the
summarization call at index `i` fails.  `freshId i` stands for
`f"source_{i}_{uuid.uuid4().hex[:8]}"`. -/
def perSourceItem (topic : String) (freshId : Nat → String)
    (summ : Nat → Except String SourceSummary) (now : ℚ) (i : Nat)
    (item : GraphSearchItem) : Option SourceSummary :=
  match item.search_result with
  | none => none
  | some sr =>
    match summ i with
    | .ok s => some { s with metadata := mkMetadata sr, source_id := freshId i }
    | .error _ => some
      { source_id := freshId i
        metadata := mkMetadata sr
        summary := "Information about " ++ topic ++ " from " ++ sr.title
        key_points := ["Key information about " ++ topic]
        relevance_score := 3 / 5
        credibility_score := 1 / 2
        extraction_timestamp := now }

/-- The per-source loop with its running `enumerate` index. -/
def perSourceLoop (topic : String) (freshId : Nat → String)
    (summ : Nat → Except String SourceSummary) (now : ℚ) :
    Nat → List GraphSearchItem → List SourceSummary
  | _, [] => []
  | i, item :: rest =>
    match perSourceItem topic freshId summ now i item with
    | none => perSourceLoop topic freshId summ now (i + 1) rest
    | some s => s :: perSourceLoop topic freshId summ now (i + 1) rest

/-- `ResearchBriefGraph._per_source_summarization_node` (graph.py, lines
155-220).  `outer` is the outcome of the loop body outside the per-item
`try` (e.g. metadata validation): `some e` means the stage aborted and
recorded the error without touching the summaries slot. -/
def perSourceNode (freshId : Nat → String)
    (summ : Nat → Except String SourceSummary) (now : ℚ)
    (outer : Option String) (s : GraphState) : GraphState :=
  let s := { s with current_step := "per_source_summarization" }
  match outer with
  | some e =>
    { s with errors := s.errors ++ ["Source summarization error: " ++ e] }
  | none =>
    { s with source_summaries :=
        perSourceLoop s.topic freshId summ now 0 s.search_results }

/-- The per-token rate used by `_synthesis_node` (graph.py, line 269). -/
def costPerToken : ℚ := 3 / 100000

/-- `ResearchBriefGraph._synthesis_node` (graph.py, lines 222-276): re-check
the plan slot, then store the synthesized brief with id, timestamp,
execution time, token usage and cost filled in; on failure only record the
error. -/
def synthesisNode (llm : Except String FinalBrief) (now : ℚ)
    (briefId : String) (s : GraphState) : GraphState :=
  let s := { s with current_step := "synthesis" }
  let s :=
    if s.research_plan.isSome then s
    else { s with research_plan := some (fallbackPlan s.topic s.depth) }
  match llm with
  | .error e => { s with errors := s.errors ++ ["Synthesis error: " ++ e] }
  | .ok fb =>
    let total_tokens : Nat := (s.token_usage.map Prod.snd).sum
    { s with final_brief := some {
        fb with
        brief_id := briefId
        generated_at := now
        execution_time :=
          match s.start_time with
          | some t => now - t
          | none => 0
        token_usage := s.token_usage
        cost_estimate := (total_tokens : ℚ) * costPerToken } }

/-- `ResearchBriefGraph._post_processing_node` (graph.py, lines 278-305).
`dbOutcome` is the outcome of the save/update calls (`some e` = failure). -/
def postProcessingNode (dbOutcome : Option String) (s : GraphState) :
    GraphState :=
  let s := { s with current_step := "post_processing" }
  match dbOutcome with
  | some e =>
    { s with errors := s.errors ++ ["Post-processing error: " ++ e] }
  | none => s

/-! ## Theorems for claim C4 -/

/-- **C4.** If the plan-generation call fails during Planning, the resulting
state's plan slot holds the single-step fallback plan — one step, priority 5,
estimated time 30 minutes, plan topic equal to the requested topic — and the
error list records the planning failure; moreover Planning never leaves the
plan slot empty, whatever the call's outcome. -/
theorem planningNode_fallback (s : GraphState) (e : String)
    (llm : Except String ResearchPlan) (hfail : llm = .error e) :
    (planningNode llm s).research_plan = some (fallbackPlan s.topic s.depth) ∧
    (fallbackPlan s.topic s.depth).steps.length = 1 ∧
    (∀ step ∈ (fallbackPlan s.topic s.depth).steps,
      step.priority = 5 ∧ step.estimated_time = 30) ∧
    (fallbackPlan s.topic s.depth).topic = s.topic ∧
    (planningNode llm s).errors = s.errors ++ ["Planning error: " ++ e] ∧
    ∀ llm2 : Except String ResearchPlan, ((planningNode llm2 s).research_plan).isSome := by
  subst hfail
  refine ⟨rfl, rfl, ?_, rfl, rfl, ?_⟩
  · intro step hstep
    simp only [fallbackPlan, List.mem_singleton] at hstep
    subst hstep
    exact ⟨rfl, rfl⟩
  · intro llm2
    cases llm2 <;> rfl

/-- Witness for C4 on a concrete state and failing call. -/
theorem planningNode_fallback_witness :
    (planningNode (.error "boom")
        { topic := "X", depth := 3, user_id := "u", follow_up := false }).research_plan =
      some (fallbackPlan "X" 3) ∧
    (planningNode (.error "boom")
        { topic := "X", depth := 3, user_id := "u", follow_up := false }).errors =
      [] ++ ["Planning error: boom"] :=
  ⟨(planningNode_fallback
      { topic := "X", depth := 3, user_id := "u", follow_up := false } "boom"
      (.error "boom") rfl).1,
   (planningNode_fallback
      { topic := "X", depth := 3, user_id := "u", follow_up := false } "boom"
      (.error "boom") rfl).2.2.2.2.1⟩

/-! ## Lemmas about the per-source loop -/

/-- An item with a search-result payload always yields a summary. -/
theorem perSourceItem_isSome (topic : String) (freshId : Nat → String)
    (summ : Nat → Except String SourceSummary) (now : ℚ) (i : Nat)
    (item : GraphSearchItem) (sr : SearchResult)
    (hsr : item.search_result = some sr) :
    (perSourceItem topic freshId summ now i item).isSome := by
  cases hs : summ i <;> simp [perSourceItem, hsr, hs]

/-- When every item carries a payload, the loop keeps one summary per item. -/
theorem perSourceLoop_length (topic : String) (freshId : Nat → String)
    (summ : Nat → Except String SourceSummary) (now : ℚ) :
    ∀ (items : List GraphSearchItem) (i : Nat),
      (∀ item ∈ items, item.search_result.isSome) →
      (perSourceLoop topic freshId summ now i items).length = items.length := by
  intro items
  induction items with
  | nil => intro i _; rfl
  | cons item rest ih =>
    intro i hall
    obtain ⟨sr, hsr⟩ := Option.isSome_iff_exists.mp (hall item (List.mem_cons_self _ _))
    obtain ⟨s, hs⟩ := Option.isSome_iff_exists.mp
      (perSourceItem_isSome topic freshId summ now i item sr hsr)
    simp only [perSourceLoop, hs, List.length_cons]
    exact congrArg (· + 1) (ih (i + 1) (fun x hx => hall x (List.mem_cons_of_mem _ hx)))

/-- When every item carries a payload, the loop output at position `k` is the
summary produced for the item at position `k` (index shifted by the running
counter). -/
theorem perSourceLoop_get (topic : String) (freshId : Nat → String)
    (summ : Nat → Except String SourceSummary) (now : ℚ) :
    ∀ (items : List GraphSearchItem) (i : Nat),
      (∀ item ∈ items, item.search_result.isSome) →
      ∀ k, (perSourceLoop topic freshId summ now i items).get? k =
        (items.get? k).bind (fun item => perSourceItem topic freshId summ now (i + k) item) := by
  intro items
  induction items with
  | nil => intro i _ k; cases k <;> rfl
  | cons item rest ih =>
    intro i hall k
    obtain ⟨sr, hsr⟩ := Option.isSome_iff_exists.mp (hall item (List.mem_cons_self _ _))
    obtain ⟨s, hs⟩ := Option.isSome_iff_exists.mp
      (perSourceItem_isSome topic freshId summ now i item sr hsr)
    cases k with
    | zero => simp [perSourceLoop, hs]
    | succ k =>
      have := ih (i + 1) (fun x hx => hall x (List.mem_cons_of_mem _ hx)) k
      simp only [perSourceLoop, hs, List.get?_cons_succ, this, List.get?]
      have harith : i + 1 + k = i + (k + 1) := by omega
      rw [harith]

/-! ## Theorems for claim C5 -/

/-- **C5.** On a list of `n` search results that all carry a search-result
payload, PerSourceSummarization produces exactly `n` summaries, one per
result; a result whose summarization call fails yields, at its own position,
the fallback summary with relevance 0.6 and credibility 0.5 instead of being
dropped; and an item contributes nothing iff it has no search-result payload
at all. -/
theorem perSourceNode_one_summary_per_result (s : GraphState)
    (freshId : Nat → String) (summ : Nat → Except String SourceSummary)
    (now : ℚ)
    (hall : ∀ item ∈ s.search_results, item.search_result.isSome) :
    (perSourceNode freshId summ now none s).source_summaries.length =
      s.search_results.length ∧
    (∀ k item sr e, s.search_results.get? k = some item →
      item.search_result = some sr → summ k = .error e →
      (perSourceNode freshId summ now none s).source_summaries.get? k = some
        { source_id := freshId k
          metadata := mkMetadata sr
          summary := "Information about " ++ s.topic ++ " from " ++ sr.title
          key_points := ["Key information about " ++ s.topic]
          relevance_score := 3 / 5
          credibility_score := 1 / 2
          extraction_timestamp := now }) ∧
    (∀ i item, perSourceItem s.topic freshId summ now i item = none ↔
      item.search_result = none) := by
  refine ⟨?_, ?_, ?_⟩
  · exact perSourceLoop_length s.topic freshId summ now s.search_results 0 hall
  · intro k item sr e hk hsr hfail
    have hget := perSourceLoop_get s.topic freshId summ now s.search_results 0 hall k
    simp only [perSourceNode, hget, hk, Option.bind_some, Nat.zero_add]
    simp [perSourceItem, hsr, hfail]
  · intro i item
    constructor
    · intro hnone
      cases hsr : item.search_result with
      | none => rfl
      | some sr =>
        have := perSourceItem_isSome s.topic freshId summ now i item sr hsr
        rw [hnone] at this
        cases this
    · intro hnone
      simp [perSourceItem, hnone]

/-- A concrete summary used as a successful summarization outcome. -/
def sampleSummary : SourceSummary :=
  { source_id := "s0"
    metadata :=
      { title := "T", url := "https://x", domain := "x", publication_date := none,
        author := none, source_type := "web_article" }
    summary := "ok"
    key_points := ["p"]
    relevance_score := 4 / 5
    credibility_score := 7 / 10
    extraction_timestamp := 0 }

/-- A concrete graph state with three search results carrying payloads. -/
def threeResultState : GraphState :=
  { topic := "t", depth := 3, user_id := "u", follow_up := false
    search_results :=
      [(sampleResult "u01").toItem, (sampleResult "u02").toItem,
       (sampleResult "u03").toItem] }

/-- Witness for C5: three results, the summarization call failing exactly at
index 1, yield exactly three summaries. -/
theorem perSourceNode_one_summary_per_result_witness :
    (perSourceNode (fun i => "source_" ++ toString i)
      (fun i => if i = 1 then .error "llm down" else .ok sampleSummary) 0 none
      threeResultState).source_summaries.length = 3 :=
  (perSourceNode_one_summary_per_result threeResultState
    (fun i => "source_" ++ toString i)
    (fun i => if i = 1 then .error "llm down" else .ok sampleSummary) 0
    (by decide)).1

/-! ## Theorems for claim C6 -/

/-- A concrete brief used in scenarios. -/
def sampleBrief : FinalBrief :=
  { brief_id := "b1", topic := "t", summary := "s", key_findings := ["f"]
    methodology := "m", sources := [], recommendations := ["r"]
    limitations := ["l"], generated_at := 0, execution_time := 0
    token_usage := [], cost_estimate := 0 }

/-- A state with a populated final-brief slot and a prior error. -/
def briefyState : GraphState :=
  { topic := "t", depth := 1, user_id := "u", follow_up := false
    final_brief := some sampleBrief, errors := ["old"] }

/-- A state whose summaries slot is populated but whose search-result slot is
empty, as can arise when a stage is applied outside the linear run order. -/
def staleSummaryState : GraphState :=
  { topic := "t", depth := 2, user_id := "u", follow_up := false
    search_results := []
    source_summaries := [sampleSummary] }

/-- **C6 counterexample.** Applied to a state with a populated per-source
summaries slot but an empty search-result list, the PerSourceSummarization
stage overwrites the summaries slot with the empty list, clearing it; so not
every stage preserves populatedness of every output slot on every RunState. -/
theorem perSourceNode_clears_populated_slot :
    staleSummaryState.source_summaries ≠ [] ∧
    (perSourceNode (fun _ => "id") (fun _ => .error "e") 0 none
      staleSummaryState).source_summaries = [] := by
  exact ⟨by simp [staleSummaryState], rfl⟩

/-- The per-stage preservation that does hold on arbitrary states: the error
list is only ever extended, and the three Option-valued slots (context
summary, research plan, final brief), once populated, stay populated. -/
def preservesState (f : GraphState → GraphState) : Prop :=
  ∀ s : GraphState,
    s.errors <+: (f s).errors ∧
    (s.context_summary.isSome → (f s).context_summary.isSome) ∧
    (s.research_plan.isSome → (f s).research_plan.isSome) ∧
    (s.final_brief.isSome → (f s).final_brief.isSome)

/-- **C6 (amended).** Every pipeline stage, applied to any RunState, extends
the error list (the input errors are a prefix of the output errors, so the
length never decreases) and never clears the Option-valued slots (context
summary, research plan, final brief).  The list-valued slots (search results,
per-source summaries) are overwritten wholesale by their own producing stage
— which may clear them, as the counterexample shows — and are left unchanged
by every other stage. -/
theorem stages_preserve_state (llmC : Except String ContextSummary)
    (llmP : Except String ResearchPlan) (tool : Except String (List FetchedResult))
    (freshId : Nat → String) (summ : Nat → Except String SourceSummary)
    (now now2 : ℚ) (outer dbOut : Option String)
    (llmS : Except String FinalBrief) (briefId : String) :
    preservesState (contextSummarizationNode llmC) ∧
    preservesState (planningNode llmP) ∧
    preservesState (searchNode tool) ∧
    preservesState contentFetchingNode ∧
    preservesState (perSourceNode freshId summ now outer) ∧
    preservesState (synthesisNode llmS now2 briefId) ∧
    preservesState (postProcessingNode dbOut) ∧
    (∀ s : GraphState,
      (contextSummarizationNode llmC s).research_plan = s.research_plan ∧
      (contextSummarizationNode llmC s).search_results = s.search_results ∧
      (contextSummarizationNode llmC s).source_summaries = s.source_summaries ∧
      (contextSummarizationNode llmC s).final_brief = s.final_brief) ∧
    (∀ s : GraphState,
      (planningNode llmP s).context_summary = s.context_summary ∧
      (planningNode llmP s).search_results = s.search_results ∧
      (planningNode llmP s).source_summaries = s.source_summaries ∧
      (planningNode llmP s).final_brief = s.final_brief) ∧
    (∀ s : GraphState,
      (searchNode tool s).context_summary = s.context_summary ∧
      (searchNode tool s).research_plan = s.research_plan ∧
      (searchNode tool s).source_summaries = s.source_summaries ∧
      (searchNode tool s).final_brief = s.final_brief) ∧
    (∀ s : GraphState,
      (contentFetchingNode s).context_summary = s.context_summary ∧
      (contentFetchingNode s).research_plan = s.research_plan ∧
      (contentFetchingNode s).search_results = s.search_results ∧
      (contentFetchingNode s).source_summaries = s.source_summaries ∧
      (contentFetchingNode s).final_brief = s.final_brief) ∧
    (∀ s : GraphState,
      (perSourceNode freshId summ now outer s).context_summary = s.context_summary ∧
      (perSourceNode freshId summ now outer s).research_plan = s.research_plan ∧
      (perSourceNode freshId summ now outer s).search_results = s.search_results ∧
      (perSourceNode freshId summ now outer s).final_brief = s.final_brief) ∧
    (∀ s : GraphState,
      (synthesisNode llmS now2 briefId s).context_summary = s.context_summary ∧
      (synthesisNode llmS now2 briefId s).search_results = s.search_results ∧
      (synthesisNode llmS now2 briefId s).source_summaries = s.source_summaries) ∧
    (∀ s : GraphState,
      (postProcessingNode dbOut s).context_summary = s.context_summary ∧
      (postProcessingNode dbOut s).research_plan = s.research_plan ∧
      (postProcessingNode dbOut s).search_results = s.search_results ∧
      (postProcessingNode dbOut s).source_summaries = s.source_summaries ∧
      (postProcessingNode dbOut s).final_brief = s.final_brief) := by
  refine ⟨?_, ?_, ?_, ?_, ?_, ?_, ?_, ?_, ?_, ?_, ?_, ?_, ?_, ?_⟩
  · intro s
    by_cases hf : s.follow_up <;> cases llmC <;>
      simp [contextSummarizationNode, hf, List.prefix_append]
  · intro s
    cases llmP <;> simp [planningNode, List.prefix_append]
  · intro s
    cases tool <;> simp [searchNode, List.prefix_append]
  · intro s
    simp [contentFetchingNode]
  · intro s
    cases outer <;> simp [perSourceNode, List.prefix_append]
  · intro s
    by_cases hp : s.research_plan.isSome <;> cases llmS <;>
      simp [synthesisNode, hp, List.prefix_append]
  · intro s
    cases dbOut <;> simp [postProcessingNode, List.prefix_append]
  · intro s
    by_cases hf : s.follow_up <;> cases llmC <;>
      simp [contextSummarizationNode, hf]
  · intro s
    cases llmP <;> simp [planningNode]
  · intro s
    cases tool <;> simp [searchNode]
  · intro s
    simp [contentFetchingNode]
  · intro s
    cases outer <;> simp [perSourceNode]
  · intro s
    by_cases hp : s.research_plan.isSome <;> cases llmS <;>
      simp [synthesisNode, hp]
  · intro s
    cases dbOut <;> simp [postProcessingNode]

/-- Witness for the amended C6: on a concrete populated state, the planning
stage keeps the final-brief slot populated and extends the error list. -/
theorem stages_preserve_state_witness :
    (planningNode (.error "x") briefyState).final_brief.isSome ∧
    (["old"] : List String) <+: (planningNode (.error "x") briefyState).errors :=
  ⟨((stages_preserve_state (.ok
      { user_id := "u", previous_topics := [], key_themes := [],
        preferred_depth := 1, last_interaction := none,
        context_relevance_score := 0 })
    (.error "x") (.ok []) (fun _ => "id") (fun _ => .error "e") 0 0 none none
    (.error "y") "b").2.1 briefyState).2.2.2 rfl,
   ((stages_preserve_state (.ok
      { user_id := "u", previous_topics := [], key_themes := [],
        preferred_depth := 1, last_interaction := none,
        context_relevance_score := 0 })
    (.error "x") (.ok []) (fun _ => "id") (fun _ => .error "e") 0 0 none none
    (.error "y") "b").2.1 briefyState).1⟩

/-! ## Theorems for claim C7 -/

/-- **C7.** Whenever Synthesis succeeds, the stored final brief's cost
estimate equals the sum of all accumulated per-category token counters times
the fixed per-token rate, its token-usage mapping equals the accumulated
counters, and its execution time is the current time minus the run's start
time (0 when no start time is set). -/
theorem synthesisNode_brief_accounting (s : GraphState) (fb : FinalBrief)
    (llm : Except String FinalBrief) (now : ℚ) (briefId : String)
    (hok : llm = .ok fb) :
    ∃ fb2, (synthesisNode llm now briefId s).final_brief = some fb2 ∧
      fb2.cost_estimate = ((s.token_usage.map Prod.snd).sum : ℚ) * costPerToken ∧
      fb2.token_usage = s.token_usage ∧
      (∀ t, s.start_time = some t → fb2.execution_time = now - t) ∧
      (s.start_time = none → fb2.execution_time = 0) := by
  subst hok
  have hkey : (synthesisNode (.ok fb) now briefId s).final_brief = some
      { fb with
        brief_id := briefId
        generated_at := now
        execution_time :=
          match s.start_time with
          | some t => now - t
          | none => 0
        token_usage := s.token_usage
        cost_estimate := ((s.token_usage.map Prod.snd).sum : ℚ) * costPerToken } := by
    by_cases hp : s.research_plan.isSome <;> simp [synthesisNode, hp]
  refine ⟨_, hkey, rfl, rfl, ?_, ?_⟩
  · intro t ht
    simp [ht]
  · intro ht
    simp [ht]

/-- Witness for C7 on a concrete state with two token categories and a start
time. -/
theorem synthesisNode_brief_accounting_witness :
    ∃ fb2,
      (synthesisNode (.ok sampleBrief) 12 "brief_1"
        { topic := "t", depth := 1, user_id := "u", follow_up := false,
          start_time := some 2,
          token_usage := [("planning", 1000), ("synthesis", 2000)] }).final_brief =
        some fb2 ∧
      fb2.cost_estimate = ((3000 : ℚ)) * costPerToken ∧
      fb2.execution_time = 10 := by
  obtain ⟨fb2, hset, hcost, _htu, hexec, _⟩ :=
    synthesisNode_brief_accounting
      { topic := "t", depth := 1, user_id := "u", follow_up := false,
        start_time := some 2,
        token_usage := [("planning", 1000), ("synthesis", 2000)] }
      sampleBrief (.ok sampleBrief) 12 "brief_1" rfl
  refine ⟨fb2, hset, ?_, ?_⟩
  · rw [hcost]; norm_num
  · rw [hexec 2 rfl]; norm_num

/-! ## Terminal inspection in `run` (`app/graph.py`, lines 307-347) -/

/-- Python's `"; ".join`. -/
def joinErrors : List String → String
  | [] => ""
  | [e] => e
  | e :: rest => e ++ "; " ++ joinErrors rest

/-- The terminal state `ainvoke` hands back: either a plain dictionary or a
`GraphState` object — `run` inspects the two shapes differently. -/
inductive TerminalState where
  | dictState (final_brief : Option FinalBrief) (errors : List String)
  | stateObj (final_brief : Option FinalBrief) (errors : List String)
deriving DecidableEq, Repr

/-- The message of the error `run` raises when the terminal state carries
recorded errors, after the outer wrap (graph.py, lines 331-332 / 337-339 and
346-347). -/
def workflowErrorsMsg (errs : List String) : String :=
  "Workflow execution failed: Workflow errors: " ++ joinErrors errs

/-- The message raised when no final brief exists. -/
def noBriefMsg : String :=
  "Workflow execution failed: Failed to generate brief - no final_brief in state"

/-- The terminal inspection of `ResearchBriefGraph.run` (graph.py, lines
322-347): for a dictionary, a populated final-brief slot is returned first
and only otherwise are errors raised; for a `GraphState` object, a non-empty
error list is raised first even when a brief exists. -/
def runOutcome : TerminalState → Except String FinalBrief
  | .dictState fb errs =>
    match fb with
    | some b => .ok b
    | none =>
      if errs.isEmpty then .error noBriefMsg
      else .error (workflowErrorsMsg errs)
  | .stateObj fb errs =>
    if errs.isEmpty then
      match fb with
      | some b => .ok b
      | none => .error noBriefMsg
    else .error (workflowErrorsMsg errs)

/-- Appending strings concatenates their character data. -/
theorem string_data_append (a b : String) : (a ++ b).data = a.data ++ b.data :=
  String.data_append a b

/-- Every recorded error is an infix of the joined error string. -/
theorem mem_isInfix_joinErrors (errs : List String) (e : String)
    (he : e ∈ errs) : e.data <:+: (joinErrors errs).data := by
  induction errs with
  | nil => cases he
  | cons a rest ih =>
    cases rest with
    | nil =>
      rcases List.mem_singleton.mp he with rfl
      exact List.infix_refl _
    | cons b rest' =>
      rcases List.mem_cons.mp he with rfl | he'
      · rw [show joinErrors (e :: b :: rest') = e ++ "; " ++ joinErrors (b :: rest') from rfl]
        rw [string_data_append, string_data_append]
        exact ((List.prefix_append e.data _).trans
          (List.prefix_append _ _)).isInfix
      · rw [show joinErrors (a :: b :: rest') = a ++ "; " ++ joinErrors (b :: rest') from rfl]
        rw [string_data_append]
        exact (ih he').trans (List.suffix_append _ _).isInfix

/-- **C1 counterexample.** A dictionary-shaped terminal state with a
populated final-brief slot and a non-empty error list makes `run` return the
brief: the presence of a final brief does suppress the failure on this path,
refuting the claim as stated. -/
theorem runOutcome_dict_suppresses_errors :
    (["Planning error: boom"] : List String) ≠ [] ∧
    runOutcome (.dictState (some sampleBrief) ["Planning error: boom"]) =
      .ok sampleBrief ∧
    ¬ ∃ msg, runOutcome (.dictState (some sampleBrief) ["Planning error: boom"]) =
      .error msg := by
  refine ⟨by simp, rfl, ?_⟩
  rintro ⟨msg, h⟩
  simp [runOutcome] at h

/-- **C1 (amended).** When the terminal state is handled as a `GraphState`
object, a non-empty error list makes `run` fail with a message containing
every recorded stage error (concatenated), even when the final-brief slot is
populated; the same holds for a dictionary-shaped terminal state whose
final-brief slot is empty.  For a dictionary-shaped terminal state with a
populated brief, the brief is returned and the recorded errors are
suppressed. -/
theorem runOutcome_fails_on_errors (fb : Option FinalBrief)
    (errs : List String) (hne : errs ≠ []) :
    (runOutcome (.stateObj fb errs) = .error (workflowErrorsMsg errs) ∧
      ∀ e ∈ errs, e.data <:+: (workflowErrorsMsg errs).data) ∧
    (runOutcome (.dictState none errs) = .error (workflowErrorsMsg errs)) ∧
    (∀ b, fb = some b → runOutcome (.dictState fb errs) = .ok b) := by
  have hempty : errs.isEmpty = false := by
    cases errs with
    | nil => exact absurd rfl hne
    | cons a rest => rfl
  refine ⟨⟨?_, ?_⟩, ?_, ?_⟩
  · simp [runOutcome, hempty]
  · intro e he
    rw [workflowErrorsMsg, string_data_append]
    exact (mem_isInfix_joinErrors errs e he).trans
      (List.suffix_append _ _).isInfix
  · simp [runOutcome, hempty]
  · intro b hb
    subst hb
    rfl

/-- Witness for the amended C1 on a concrete two-error terminal state. -/
theorem runOutcome_fails_on_errors_witness :
    runOutcome (.stateObj (some sampleBrief) ["Search error: a", "Synthesis error: b"]) =
      .error (workflowErrorsMsg ["Search error: a", "Synthesis error: b"]) ∧
    ("Search error: a" : String).data <:+:
      (workflowErrorsMsg ["Search error: a", "Synthesis error: b"]).data :=
  ⟨(runOutcome_fails_on_errors (some sampleBrief)
      ["Search error: a", "Synthesis error: b"] (by simp)).1.1,
   (runOutcome_fails_on_errors (some sampleBrief)
      ["Search error: a", "Synthesis error: b"] (by simp)).1.2
      "Search error: a" (by simp)⟩

/-! ## User-context store (`app/database.py`) -/

/-- A row of the `user_contexts` table. -/
structure UserContextRecord where
  user_id : String
  previous_topics : List String
  key_themes : List String
  preferred_depth : Nat
  last_interaction : ℚ
  context_relevance_score : ℚ
deriving DecidableEq, Repr

/-- Python's `l[-10:]`. -/
def lastTen (l : List String) : List String := l.drop (l.length - 10)

/-- `DatabaseManager.update_user_context` (database.py, lines 176-200): append
the topic if it is not already stored, keep only the last 10 topics, set the
preferred depth, refresh the timestamp; create a fresh single-topic record
when the user has none. -/
def update_user_context (db : Option UserContextRecord) (user_id topic : String)
    (depth : Nat) (now : ℚ) : UserContextRecord :=
  match db with
  | some r =>
    let pts :=
      if topic ∈ r.previous_topics then r.previous_topics
      else r.previous_topics ++ [topic]
    { r with
      previous_topics := lastTen pts
      preferred_depth := depth
      last_interaction := now }
  | none =>
    { user_id := user_id
      previous_topics := [topic]
      key_themes := []
      preferred_depth := depth
      last_interaction := now
      context_relevance_score := 0 }

/-- The topic list a (possibly absent) record stores. -/
def storeTopics : Option UserContextRecord → List String
  | none => []
  | some r => r.previous_topics

/-- A sequence of `update_user_context` calls for one user. -/
def updateMany (db : Option UserContextRecord) (user_id : String)
    (topics : List String) (depth : Nat) (now : ℚ) : Option UserContextRecord :=
  topics.foldl (fun d t => some (update_user_context d user_id t depth now)) db

/-- Dropping to the last ten of a list already cut to its last ten commutes
with appending more elements. -/
theorem lastTen_append_left (pre u : List String) (h : 10 ≤ u.length) :
    lastTen (pre ++ u) = lastTen u := by
  unfold lastTen
  rw [List.length_append]
  have harith : pre.length + u.length - 10 = pre.length + (u.length - 10) := by omega
  rw [harith, List.drop_append]

/-- Truncating to the last ten, appending, and truncating again is the same
as truncating the full concatenation once. -/
theorem lastTen_append_lastTen (xs ys : List String) :
    lastTen (lastTen xs ++ ys) = lastTen (xs ++ ys) := by
  by_cases h : xs.length ≤ 10
  · have : lastTen xs = xs := by
      unfold lastTen
      have : xs.length - 10 = 0 := by omega
      rw [this, List.drop_zero]
    rw [this]
  · have hlen : (lastTen xs).length = 10 := by
      unfold lastTen
      rw [List.length_drop]
      omega
    have hsplit : xs = xs.take (xs.length - 10) ++ lastTen xs :=
      (List.take_append_drop _ _).symm
    calc lastTen (lastTen xs ++ ys)
        = lastTen (xs.take (xs.length - 10) ++ (lastTen xs ++ ys)) :=
          (lastTen_append_left _ _ (by rw [List.length_append, hlen]; omega)).symm
      _ = lastTen (xs ++ ys) := by
          rw [← List.append_assoc, ← hsplit]

/-- After a run of updates whose topics are pairwise distinct and not yet
stored, the stored topic list is the last ten of the old store followed by
the new topics, and the last call's depth and timestamp stick. -/
theorem updateMany_topics (user_id : String) (depth : Nat) (now : ℚ) :
    ∀ (ts : List String) (db : Option UserContextRecord),
      ts ≠ [] → ts.Nodup → (∀ t ∈ ts, t ∉ storeTopics db) →
      ∃ r, updateMany db user_id ts depth now = some r ∧
        r.previous_topics = lastTen (storeTopics db ++ ts) ∧
        r.preferred_depth = depth ∧ r.last_interaction = now := by
  intro ts
  induction ts with
  | nil => intro db h; exact absurd rfl h
  | cons t rest ih =>
    intro db _ hnodup hfresh
    have hstore : storeTopics
        (some (update_user_context db user_id t depth now)) =
        lastTen (storeTopics db ++ [t]) := by
      cases db with
      | none => simp [storeTopics, update_user_context, lastTen]
      | some r =>
        have ht : t ∉ r.previous_topics := hfresh t (List.mem_cons_self _ _)
        simp [storeTopics, update_user_context, ht]
    cases rest with
    | nil =>
      refine ⟨update_user_context db user_id t depth now, rfl, hstore, ?_, ?_⟩ <;>
        cases db <;> rfl
    | cons b rest2 =>
      have hfresh2 : ∀ x ∈ b :: rest2,
          x ∉ storeTopics (some (update_user_context db user_id t depth now)) := by
        intro x hx hmem
        rw [hstore] at hmem
        have hx2 : x ∈ storeTopics db ++ [t] := List.mem_of_mem_drop hmem
        rcases List.mem_append.mp hx2 with hl | hr
        · exact hfresh x (List.mem_cons_of_mem _ hx) hl
        · rcases List.mem_singleton.mp hr with rfl
          exact (List.nodup_cons.mp hnodup).1 hx
      obtain ⟨r, hfold, htop, hd, hn⟩ :=
        ih (some (update_user_context db user_id t depth now))
          (List.cons_ne_nil _ _) (List.nodup_cons.mp hnodup).2 hfresh2
      refine ⟨r, hfold, ?_, hd, hn⟩
      rw [htop, hstore, lastTen_append_lastTen]
      congr 1
      simp

/-! ## Theorems for claim C8 -/

/-- **C8.** Eleven `update_user_context` calls with eleven pairwise-distinct,
not-yet-stored topics leave exactly 10 topics stored — the 10 most recently
added, i.e. the last ten of the call sequence; and each single call appends
the topic only if it is not already stored (then truncates to the last ten),
sets the stored preferred depth to the requested depth, and refreshes the
last-interaction timestamp. -/
theorem update_user_context_boundary (db : Option UserContextRecord)
    (user_id : String) (ts : List String) (depth : Nat) (now : ℚ)
    (hlen : ts.length = 11) (hnodup : ts.Nodup)
    (hfresh : ∀ t ∈ ts, t ∉ storeTopics db) :
    (∃ r, updateMany db user_id ts depth now = some r ∧
      r.previous_topics = ts.drop 1 ∧
      r.previous_topics.length = 10 ∧
      r.preferred_depth = depth ∧
      r.last_interaction = now) ∧
    (∀ (r : UserContextRecord) (t : String),
      (update_user_context (some r) user_id t depth now).previous_topics =
        lastTen (if t ∈ r.previous_topics then r.previous_topics
          else r.previous_topics ++ [t]) ∧
      (update_user_context (some r) user_id t depth now).preferred_depth = depth ∧
      (update_user_context (some r) user_id t depth now).last_interaction = now) := by
  constructor
  · have hne : ts ≠ [] := by
      intro h
      rw [h] at hlen
      cases hlen
    obtain ⟨r, hfold, htop, hd, hn⟩ := updateMany_topics user_id depth now ts db hne hnodup hfresh
    have htail : lastTen (storeTopics db ++ ts) = ts.drop 1 := by
      unfold lastTen
      rw [List.length_append, hlen]
      have : (storeTopics db).length + 11 - 10 = (storeTopics db).length + 1 := by omega
      rw [this, List.drop_append]
    refine ⟨r, hfold, htop.trans htail, ?_, hd, hn⟩
    rw [htop.trans htail, List.length_drop, hlen]
  · intro r t
    exact ⟨rfl, rfl, rfl⟩

/-- Eleven pairwise-distinct topics. -/
def elevenTopics : List String :=
  ["t01", "t02", "t03", "t04", "t05", "t06", "t07", "t08", "t09", "t10", "t11"]

/-- Witness for C8: a fresh user, eleven distinct topics. -/
theorem update_user_context_boundary_witness :
    ∃ r, updateMany none "u" elevenTopics 4 7 = some r ∧
      r.previous_topics = elevenTopics.drop 1 ∧
      r.previous_topics.length = 10 ∧
      r.preferred_depth = 4 ∧
      r.last_interaction = 7 :=
  (update_user_context_boundary none "u" elevenTopics 4 7 (by decide) (by decide)
    (by decide)).1

/-! ## Theorems for claim C9 -/

/-- **C9.** `searchAndFetch` returns exactly one {searchResult, fetchOutcome}
pair per search hit: the output has one entry per hit, in order; a hit whose
document fetch fails still gets its entry, with the fetch outcome marked
unsuccessful and a diagnostic content placeholder; and when the search
provider call itself fails the search layer returns exactly the one synthetic
placeholder hit referencing the query, so the output has exactly one entry. -/
theorem searchAndFetchRun_retention (query : String) (netloc : String → String)
    (provider : Except String (List ProviderHit))
    (fetcher : String → Except String ExtractedPage) :
    (searchAndFetchRun query netloc provider fetcher).length =
      (webSearchRun query netloc provider).length ∧
    (∀ k r, (webSearchRun query netloc provider).get? k = some r →
      (searchAndFetchRun query netloc provider fetcher).get? k = some
        { search_result := r, content := fetchContent r.url (fetcher r.url) } ∧
      ∀ e, fetcher r.url = .error e →
        (fetchContent r.url (fetcher r.url)).success = false ∧
        (fetchContent r.url (fetcher r.url)).content =
          "Content could not be fetched from " ++ r.url ++ ". Error: " ++ e) ∧
    (∀ err, provider = .error err →
      webSearchRun query netloc provider = [mockSearchResult query] ∧
      (searchAndFetchRun query netloc provider fetcher).length = 1 ∧
      (mockSearchResult query).title = query ++ " - Research Information") := by
  refine ⟨List.length_map _ _, ?_, ?_⟩
  · intro k r hk
    constructor
    · rw [searchAndFetchRun, List.get?_map, hk]
      rfl
    · intro e he
      rw [he]
      exact ⟨rfl, rfl⟩
  · intro err herr
    subst herr
    exact ⟨rfl, rfl, rfl⟩

/-- Witness for C9: a failing provider and a failing fetcher still produce
exactly one entry, whose fetch outcome is marked unsuccessful. -/
theorem searchAndFetchRun_retention_witness :
    (searchAndFetchRun "q" (fun _ => "d") (.error "provider down")
      (fun _ => .error "timeout")).length = 1 ∧
    (fetchContent (mockSearchResult "q").url
      ((fun _ => (.error "timeout" : Except String ExtractedPage))
        (mockSearchResult "q").url)).success = false :=
  ⟨((searchAndFetchRun_retention "q" (fun _ => "d") (.error "provider down")
      (fun _ => .error "timeout")).2.2 "provider down" rfl).2.1,
   (((searchAndFetchRun_retention "q" (fun _ => "d") (.error "provider down")
      (fun _ => .error "timeout")).2.1 0 (mockSearchResult "q") rfl).2
      "timeout" rfl).1⟩

/-! ## Theorems for claim C10 -/

/-- **C10.** The Document Fetcher's `content_length` field does not describe
the returned content string: on success it equals the length of the extracted
text before truncation — strictly exceeding the length of the returned
content whenever the text is longer than the 8000-character cap — and on any
failure it is the constant 50 while the returned content is the diagnostic
string, whatever that string's length. -/
theorem fetchContent_content_length (url : String)
    (outcome : Except String ExtractedPage) :
    (∀ page, outcome = .ok page →
      (fetchContent url outcome).content_length = page.text.length ∧
      (fetchContent url outcome).content = strTake page.text 8000 ∧
      (8000 < page.text.length →
        (fetchContent url outcome).content.length <
          (fetchContent url outcome).content_length)) ∧
    (∀ e, outcome = .error e →
      (fetchContent url outcome).content_length = 50 ∧
      (fetchContent url outcome).content =
        "Content could not be fetched from " ++ url ++ ". Error: " ++ e) := by
  constructor
  · intro page hok
    subst hok
    refine ⟨rfl, rfl, ?_⟩
    intro hlong
    show (strTake page.text 8000).length < page.text.length
    have : (strTake page.text 8000).length = min 8000 page.text.length := by
      show (page.text.data.take 8000).length = _
      rw [List.length_take]
      rfl
    rw [this]
    omega
  · intro e herr
    subst herr
    exact ⟨rfl, rfl⟩

/-- A page whose extracted text is 8001 characters long. -/
def longPage : ExtractedPage := { title := "T", text := ⟨List.replicate 8001 'a'⟩ }

/-- Witness for C10: on the 8001-character page the reported length is 8001
while the returned content holds 8000 characters; on a failure the reported
length is 50 while the diagnostic string has 45 characters. -/
theorem fetchContent_content_length_witness :
    (fetchContent "https://x" (.ok longPage)).content_length = longPage.text.length ∧
    (fetchContent "https://x" (.ok longPage)).content.length <
      (fetchContent "https://x" (.ok longPage)).content_length ∧
    (fetchContent "u" (.error "x")).content_length = 50 ∧
    (fetchContent "u" (.error "x")).content.length = 45 := by
  have h1 := (fetchContent_content_length "https://x" (.ok longPage)).1 longPage rfl
  have h2 := (fetchContent_content_length "u" (.error "x")).2 "x" rfl
  have hlong : 8000 < longPage.text.length := by
    show 8000 < (List.replicate 8001 'a').length
    rw [List.length_replicate]
    omega
  refine ⟨h1.1, h1.2.2 hlong, h2.1, ?_⟩
  rw [h2.2]
  rfl

end ResearchBrief
